import Mathlib

/-!
# LobsterOS core: shallow embedding and verification

This file embeds the core data structures and operations of the LobsterOS
kernel (AHCI disk driver, round-robin scheduler, per-process page tables,
FAT32 file reads, syscall dispatch, ACPI RSDP scan, ELF64 header
validation, and the boot frame allocators) as executable Lean definitions,
and proves or refutes the specification's claims about them.

Machine integers are modelled as `Nat` with explicit `% 2^w` reductions at
the points where the Rust code can wrap.  Fallible operations return
`Option` or a dedicated result type; a Rust `panic!`/`expect` is a
distinguished constructor of the result type.  MMIO register reads during
busy-wait loops are modelled as streams (`Nat → Nat`) of observed values,
with fuel bounding the number of loop iterations examined.
-/

namespace LobsterOS

/-! ## AHCI disk driver (src/disk.rs) -/

namespace Disk

/-- The two error values of `enum DiskAccessError` in src/disk.rs. -/
inductive DiskAccessError where
  | NoCommandSlots
  | TaskFileError
  deriving DecidableEq, Repr

/-- The port/HBA registers read by `find_command_slot`:
`hba_mem.host_capability` (CAP), `port.sata_active` (SACT) and
`port.command_issue` (CI).  Each is a `u32` value. -/
structure PortRegs where
  host_capability : Nat
  sata_active : Nat
  command_issue : Nat
  deriving DecidableEq, Repr

/-- Embedding of `find_command_slot` (src/disk.rs:589-597):

```
let slots = ahci_port.port.sata_active | ahci_port.port.command_issue;
for i in 0..((ahci_port.hba_mem.host_capability >> 8) & 0xF0) {
    if ((slots >> i) & 0b1) == 0 { return Some(i as usize) }
}
None
```
-/
def find_command_slot (regs : PortRegs) : Option Nat :=
  let slots := regs.sata_active ||| regs.command_issue
  (List.range ((regs.host_capability >>> 8) &&& 0xF0)).find?
    (fun i => (slots >>> i) &&& 1 == 0)

/-- The NCS field of the HBA capability register: CAP bits 8..12
(mask `0x1F`), as the spec describes it. -/
def capNCS (cap : Nat) : Nat := (cap >>> 8) &&& 0x1F

/-- Streams of values observed on the port's MMIO registers while the
read/write routines busy-wait: the `k`-th read of `task_file_data`,
`command_issue` and `interrupt_status` respectively. -/
structure PortIO where
  tfd : Nat → Nat
  ci : Nat → Nat
  is : Nat → Nat

/-- Outcome of a `read_sectors`/`write_sectors` call.  `panicked` models a
failed `expect`; `spinning` means the fuel ran out while a busy-wait loop
had not yet observed its exit condition (the call is still polling). -/
inductive DiskOutcome (α : Type) where
  | ok (a : α)
  | err (e : DiskAccessError)
  | panicked
  | spinning
  deriving DecidableEq, Repr

/-- The busy-wait on `task_file_data` (`loop { if (tfd & 0x88) == 0 break }`):
returns the index of the first read with BSY and DRQ clear, or none if
`fuel` reads were all busy. -/
def tfdWait (tfd : Nat → Nat) : Nat → Nat → Option Nat
  | _, 0 => none
  | k, fuel + 1 =>
    if tfd k &&& 0x88 == 0 then some k else tfdWait tfd (k + 1) fuel

/-- The completion poll loop of `read_sectors`/`write_sectors`
(src/disk.rs:483-498): each iteration reads CI; if the slot's bit has
cleared the loop breaks and a final read of IS decides success or
`TaskFileError`; otherwise IS is read and bit 30 (TFES) set means
`TaskFileError`.  Iteration `k` observes `io.ci k` and (when needed)
`io.is k`. -/
def ciPoll (slot : Nat) (io : PortIO) : Nat → Nat → Option (Except DiskAccessError Unit)
  | _, 0 => none
  | k, fuel + 1 =>
    if (io.ci k >>> slot) &&& 1 == 0 then
      if (io.is k >>> 30) &&& 1 == 1 then some (.error .TaskFileError)
      else some (.ok ())
    else if (io.is k >>> 30) &&& 1 == 1 then some (.error .TaskFileError)
    else ciPoll slot io (k + 1) fuel

/-- Embedding of `read_sectors` (src/disk.rs:418-501), projected onto the
state that decides its outcome.  `translateOk` is whether
`mapper.translate_addr` succeeds on the output buffer (its `ok_or`
failure returns `NoCommandSlots`); the FIS/PRDT/header writes do not
affect the outcome and the returned buffer is represented by its length
`512 * sector_count`.  `find_command_slot(...).expect(...)` panics when no
slot is found. -/
def read_sectors (regs : PortRegs) (io : PortIO) (translateOk : Bool)
    (sector_count : Nat) (fuel : Nat) : DiskOutcome Nat :=
  match find_command_slot regs with
  | none => .panicked
  | some slot =>
    if !translateOk then .err .NoCommandSlots
    else
      match tfdWait io.tfd 0 fuel with
      | none => .spinning
      | some _ =>
        match ciPoll slot io 0 fuel with
        | none => .spinning
        | some (.error e) => .err e
        | some (.ok ()) => .ok (512 * sector_count)

set_option linter.unusedVariables false in
/-- Embedding of `write_sectors` (src/disk.rs:503-586): identical control
flow to `read_sectors` (the write bit and FIS command byte do not affect
the outcome; `sector_count` only sizes the PRDT byte count), returning
`()` on success. -/
def write_sectors (regs : PortRegs) (io : PortIO) (translateOk : Bool)
    (sector_count : Nat) (fuel : Nat) : DiskOutcome Unit :=
  match find_command_slot regs with
  | none => .panicked
  | some slot =>
    if !translateOk then .err .NoCommandSlots
    else
      match tfdWait io.tfd 0 fuel with
      | none => .spinning
      | some _ =>
        match ciPoll slot io 0 fuel with
        | none => .spinning
        | some (.error e) => .err e
        | some (.ok ()) => .ok ()

end Disk

/-! ## Round-robin scheduler (src/threading/scheduler.rs) -/

namespace Sched

/-- `enum TaskState` of src/threading/scheduler.rs. -/
inductive TaskState where
  | READY
  | RUNNING
  | WAITING
  | DONE
  deriving DecidableEq, Repr

/-- A `Task` record: its state and PID.  The `Process` payload (saved
registers, page table) does not affect queue evolution and is omitted. -/
structure Task where
  state : TaskState
  pid : Nat
  deriving DecidableEq, Repr

/-- The `Scheduler` struct: `tasks` is the `VecDeque<Task>`,
`current_task_ticks : u32`, `next_task_id : u64`, `current_task : usize`,
`is_enabled : bool`. -/
structure Scheduler where
  tasks : List Task
  current_task_ticks : Nat
  next_task_id : Nat
  current_task : Nat
  is_enabled : Bool
  deriving DecidableEq, Repr

def U64 : Nat := 2 ^ 64

def U32 : Nat := 2 ^ 32

/-- `QUANTUM` (src/threading/scheduler.rs:10). -/
def QUANTUM : Nat := 20

/-- The static `SCHEDULER` initial state: empty queue, zero ticks and ids,
`current_task = usize::MAX - 1`, disabled. -/
def initScheduler : Scheduler :=
  { tasks := []
    current_task_ticks := 0
    next_task_id := 0
    current_task := U64 - 2
    is_enabled := false }

/-- `if let Some(task) = self.tasks.get_mut(idx) { task.state = st }`. -/
def setState (tasks : List Task) (idx : Nat) (st : TaskState) : List Task :=
  match tasks[idx]? with
  | none => tasks
  | some t => tasks.set idx { t with state := st }

/-- The index update at the top of each `get_next_task` loop iteration:
`current_task += 1` (wrapping usize) then `if current_task >= len { 0 }`. -/
def nextIdx (tasks : List Task) (cur : Nat) : Nat :=
  let cur1 := (cur + 1) % U64
  if decide (cur1 ≥ tasks.length) then 0 else cur1

/-- The body of the `loop` in `get_next_task`
(src/threading/scheduler.rs:107-124) with the given fuel bounding the
number of iterations; `none` models nontermination within the fuel or the
`panic!` on a RUNNING task.  The post-removal `current_task -= 1` uses
wrapping `usize` arithmetic. -/
def nextLoop : List Task → Nat → Nat → Option (List Task × Nat)
  | _, _, 0 => none
  | tasks, cur, fuel + 1 =>
    match tasks[nextIdx tasks cur]? with
    | none => nextLoop tasks (nextIdx tasks cur) fuel
    | some t =>
      match t.state with
      | .DONE =>
        nextLoop (tasks.eraseIdx (nextIdx tasks cur)) ((nextIdx tasks cur + (U64 - 1)) % U64) fuel
      | .WAITING => nextLoop tasks (nextIdx tasks cur) fuel
      | .RUNNING => none
      | .READY => some (tasks, nextIdx tasks cur)

/-- `get_next_task` (src/threading/scheduler.rs:102-125): on an empty
queue it returns early (`usize::MAX`, a value its caller discards) without
touching `current_task`; otherwise it runs the rotation loop, which
removes DONE entries, skips WAITING ones, panics on RUNNING ones and
stops at the first READY one. -/
def get_next_task (s : Scheduler) (fuel : Nat) : Option Scheduler :=
  if s.tasks.isEmpty then some s
  else
    match nextLoop s.tasks s.current_task fuel with
    | none => none
    | some (tasks, cur) => some { s with tasks := tasks, current_task := cur }

/-- `swap_tasks` (src/threading/scheduler.rs:85-100), suspend path: the
initial `deactivate` call returns `false` (the `true` return belongs to
the later resume and performs no queue mutation), so the function zeroes
`current_task_ticks`, rotates via `get_next_task`, and marks the new
current task RUNNING before activating it. -/
def swap_tasks (s : Scheduler) (fuel : Nat) : Option Scheduler :=
  match get_next_task { s with current_task_ticks := 0 } fuel with
  | none => none
  | some s2 =>
    some { s2 with tasks := setState s2.tasks s2.current_task .RUNNING }

/-- `tick` (src/threading/scheduler.rs:60-75). -/
def tick (s : Scheduler) (fuel : Nat) : Option Scheduler :=
  if !s.is_enabled then some s
  else
    let s1 := { s with current_task_ticks := (s.current_task_ticks + 1) % U32 }
    if decide (s1.current_task_ticks ≥ QUANTUM) then
      swap_tasks { s1 with tasks := setState s1.tasks s1.current_task .READY } fuel
    else some s1

/-- `block_current` (src/threading/scheduler.rs:78-83). -/
def block_current (s : Scheduler) (fuel : Nat) : Option Scheduler :=
  swap_tasks { s with tasks := setState s.tasks s.current_task .WAITING } fuel

/-- `push_task` (src/threading/scheduler.rs:130-141): increments
`next_task_id`, uses it as the PID of the appended READY task, then
increments it again.  Returns the new state and the PID. -/
def push_task (s : Scheduler) : Scheduler × Nat :=
  let n1 := (s.next_task_id + 1) % U64
  let task : Task := { state := .READY, pid := n1 }
  ({ s with tasks := s.tasks ++ [task], next_task_id := (n1 + 1) % U64 }, n1)

/-- `end_task` (src/threading/scheduler.rs:146-152): marks the first task
with the given PID as DONE (leaving it in the queue); the boolean is
`true` for `Ok(())` and `false` for `Err(DoesNotExist)`. -/
def end_task (s : Scheduler) (pid : Nat) : Scheduler × Bool :=
  match s.tasks.findIdx? (fun t => t.pid == pid) with
  | some i => ({ s with tasks := setState s.tasks i .DONE }, true)
  | none => (s, false)

/-- `end_current_task` (src/threading/scheduler.rs:157-165): marks the
current task DONE and swaps; `none` models the `expect` panic when there
is no current task (or a failing swap). -/
def end_current_task (s : Scheduler) (fuel : Nat) : Option Scheduler :=
  if s.tasks[s.current_task]?.isSome then
    swap_tasks { s with tasks := setState s.tasks s.current_task .DONE } fuel
  else none

/-- `n` successive `push_task` calls, returning the final state and the
list of returned PIDs in call order. -/
def pushN : Scheduler → Nat → Scheduler × List Nat
  | s, 0 => (s, [])
  | s, n + 1 =>
    let p := push_task s
    let r := pushN p.1 n
    (r.1, p.2 :: r.2)

end Sched

/-! ## Frame allocators (src/memory.rs) -/

namespace Memory

/-- One entry of the loader-supplied memory map: its address range
`[start_addr, end_addr)` and whether its `region_type` is `Usable`. -/
structure MemRegion where
  start_addr : Nat
  end_addr : Nat
  usable : Bool
  deriving DecidableEq, Repr

/-- `(start..stop).step_by(4096)`: the addresses `start + 4096*k` that are
below `stop`. -/
def stepBy4096 (start stop : Nat) : List Nat :=
  (List.range ((stop - start + 4095) / 4096)).map (fun k => start + 4096 * k)

/-- `usable_frames` (src/memory.rs:89-98 and 50-57): filter the map to
USABLE regions, step each range by 4096, and take the frame containing
each address (`PhysFrame::containing_address` aligns down to 4096).
Frames are represented by their start addresses. -/
def usable_frames (memoryMap : List MemRegion) : List Nat :=
  (((memoryMap.filter (·.usable)).map
      (fun r => stepBy4096 r.start_addr r.end_addr)).flatten).map
    (fun a => a / 4096 * 4096)

/-- `LinearFrameAllocator` (src/memory.rs:73-76). -/
structure LinearFrameAllocator where
  memory_map : List MemRegion
  next : Nat
  deriving DecidableEq, Repr

/-- `LinearFrameAllocator::init` (src/memory.rs:82-87): `next = 0`. -/
def LinearFrameAllocator.init (memoryMap : List MemRegion) : LinearFrameAllocator :=
  { memory_map := memoryMap, next := 0 }

/-- `LinearFrameAllocator::allocate_frame` (src/memory.rs:105-108):
`self.next += 1; self.usable_frames().nth(self.next)` — the counter is
incremented first and `Iterator::nth` is zero-based, so the call yields
the element at the incremented index. -/
def LinearFrameAllocator.allocate_frame (s : LinearFrameAllocator) :
    Option Nat × LinearFrameAllocator :=
  let next := (s.next + 1) % Sched.U64
  ((usable_frames s.memory_map)[next]?, { s with next := next })

/-- `BootInfoFrameAllocator` (src/memory.rs:31-34): holds the boxed
iterator over usable frames; modelled by the list of frames it has not
yet yielded. -/
structure BootInfoFrameAllocator where
  frames : List Nat
  deriving DecidableEq, Repr

/-- `BootInfoFrameAllocator::init` (src/memory.rs:40-47):
`usable_frames(memory_map).skip(used)`. -/
def BootInfoFrameAllocator.init (memoryMap : List MemRegion) (used : Nat) :
    BootInfoFrameAllocator :=
  { frames := (usable_frames memoryMap).drop used }

/-- `BootInfoFrameAllocator::allocate_frame` (src/memory.rs:61-63):
`self.frame_iter.next()`. -/
def BootInfoFrameAllocator.allocate_frame (s : BootInfoFrameAllocator) :
    Option Nat × BootInfoFrameAllocator :=
  (s.frames.head?, { frames := s.frames.tail })

/-- `n` successive `LinearFrameAllocator::allocate_frame` calls, returning
the results in call order together with the final allocator state. -/
def linearRunN : LinearFrameAllocator → Nat → List (Option Nat) × LinearFrameAllocator
  | s, 0 => ([], s)
  | s, n + 1 =>
    let p := s.allocate_frame
    let r := linearRunN p.2 n
    (p.1 :: r.1, r.2)

/-- `n` successive `BootInfoFrameAllocator::allocate_frame` calls,
returning the results in call order together with the final allocator
state. -/
def bootRunN : BootInfoFrameAllocator → Nat → List (Option Nat) × BootInfoFrameAllocator
  | s, 0 => ([], s)
  | s, n + 1 =>
    let p := s.allocate_frame
    let r := bootRunN p.2 n
    (p.1 :: r.1, r.2)

end Memory

/-! ## Per-process page tables (src/process.rs) -/

namespace Proc

/-- A 512-entry page table, as the map from entry index to the 64-bit
entry value (indices outside 0..511 are never used). -/
def PageTable := Nat → Nat

/-- A zeroed table (`PageTable::new()` / `.zero()`). -/
def ptZero : PageTable := fun _ => 0

/-- Write one entry. -/
def ptSet (t : PageTable) (i v : Nat) : PageTable :=
  fun j => if j = i then v else t j

/-- `for i in 1..512 { dst[i] = src[i].clone() }`. -/
def copy1to511 (dst src : PageTable) : PageTable :=
  (List.range' 1 511).foldl (fun t i => ptSet t i (src i)) dst

/-- `PageTableFlags::PRESENT | WRITABLE | USER_ACCESSIBLE` = bits 0,1,2. -/
def FLAGS_PWU : Nat := 7

/-- `PageTableFlags::PRESENT | WRITABLE` = bits 0,1. -/
def FLAGS_PW : Nat := 3

/-- Result of `Process::new_page_table`: the new PML4, the new entry-0
PDPT, the new entry-0 PD of that PDPT, and the advanced allocator. -/
structure NewPTResult where
  pml4 : PageTable
  pdpt0 : PageTable
  pd0 : PageTable
  alloc : Memory.BootInfoFrameAllocator

/-- Embedding of `Process::new_page_table` (src/process.rs:88-133).
`cur`, `cur0`, `cur00` are the kernel PML4, its entry-0 PDPT
(`current_table_0`) and that PDPT's entry-0 PD (`current_table_0_0`).
`g2` is the prior contents of the second allocated frame: the new PD is
*not* zeroed before its entry 0 is written (the new PDPT is zeroed, so
the first frame's prior contents are irrelevant and not a parameter).
`set_addr(addr, flags)` stores `addr | flags`; `?` on `allocate_frame`
propagates `None`. -/
def new_page_table (cur cur0 cur00 : PageTable)
    (alloc : Memory.BootInfoFrameAllocator) (g2 : PageTable) : Option NewPTResult :=
  match alloc.allocate_frame with
  | (none, _) => none
  | (some f1, alloc1) =>
    let pt := ptSet ptZero 0 (f1 ||| FLAGS_PWU)
    let pt := copy1to511 pt cur
    let pt0 := copy1to511 ptZero cur0
    match alloc1.allocate_frame with
    | (none, _) => none
    | (some f2, alloc2) =>
      let pt0 := ptSet pt0 0 (f2 ||| FLAGS_PW)
      let pt00 := ptSet g2 0 (cur00 0)
      some ⟨pt, pt0, pt00, alloc2⟩

end Proc

/-! ## FAT32 file data read (src/fs.rs) -/

namespace Fs

def M16 : Nat := 2 ^ 16

def M32 : Nat := 2 ^ 32

/-- The `FatBootSector` fields read by `File::get_data`
(all little-endian on disk; widths noted per field). -/
structure FatBootSector where
  /-- u16 -/
  bytes_per_sector : Nat
  /-- u8 -/
  sectors_per_cluster : Nat
  /-- u16 -/
  reserved_sector_count : Nat
  /-- u8 -/
  table_count : Nat
  /-- u16 -/
  root_entry_count : Nat
  /-- u16 -/
  table_size_16 : Nat
  /-- u32 (`extended_section.table_size_32`) -/
  table_size_32 : Nat
  deriving DecidableEq, Repr

/-- The `File` directory-entry fields read by `get_data`. -/
structure File where
  /-- u16 -/
  cluster_h : Nat
  /-- u16 -/
  cluster_l : Nat
  /-- u32 -/
  file_size : Nat
  deriving DecidableEq, Repr

/-- `File::get_data_addr` (src/fs.rs:116-118):
`cluster_l as u32 | ((cluster_h as u32) << 16)`. -/
def File.get_data_addr (f : File) : Nat :=
  f.cluster_l ||| (f.cluster_h <<< 16)

/-- `fat_size` (src/fs.rs:125-129). -/
def fatSize (bs : FatBootSector) : Nat :=
  if bs.table_size_16 == 0 then bs.table_size_32 else bs.table_size_16

/-- `root_dir_sectors` (src/fs.rs:130-131), with u16 wrapping on the
multiply, add and subtract (`(root_entry_count*32 + bytes_per_sector-1) /
bytes_per_sector`). -/
def rootDirSectors (bs : FatBootSector) : Nat :=
  ((bs.root_entry_count * 32 % M16 + bs.bytes_per_sector) % M16 + (M16 - 1)) % M16
    / bs.bytes_per_sector

/-- `first_data_sector` (src/fs.rs:132-133), in u32 arithmetic. -/
def firstDataSector (bs : FatBootSector) : Nat :=
  ((bs.reserved_sector_count + bs.table_count * fatSize bs % M32) % M32
    + rootDirSectors bs) % M32

/-- `first_sector` (src/fs.rs:135-136):
`(cluster_idx - 2) * sectors_per_cluster + first_data_sector` in wrapping
u32 arithmetic. -/
def firstSector (bs : FatBootSector) (f : File) : Nat :=
  ((f.get_data_addr + (M32 - 2)) % M32 * bs.sectors_per_cluster % M32
    + firstDataSector bs) % M32

/-- `sector_count` (src/fs.rs:137):
`file_size / bytes_per_sector + 1` in u32 arithmetic (the claims are
stated under `bytes_per_sector > 0`; division by zero would panic). -/
def sectorCount (bs : FatBootSector) (f : File) : Nat :=
  (f.file_size / bs.bytes_per_sector + 1) % M32

/-- What a `get_data` call did: the LBA passed to `read_sectors`, the
sector count passed (after the `as u16` cast), and the returned buffer. -/
structure GetDataResult where
  first_sector : Nat
  sector_count : Nat
  data : List Nat
  deriving DecidableEq, Repr

/-- Embedding of `File::get_data` (src/fs.rs:120-145) on the successful
disk path.  `disk` gives the byte at each absolute disk offset;
`read_sectors` returns `512 * n` bytes starting at byte `512 * lba`, and
the final `set_len(file_size)` truncates the buffer to `file_size`
bytes. -/
def File.get_data (f : File) (bs : FatBootSector) (disk : Nat → Nat) : GetDataResult :=
  let lba := firstSector bs f
  let n := sectorCount bs f % M16
  let buffer := (List.range (512 * n)).map (fun i => disk (512 * lba + i))
  { first_sector := lba, sector_count := n, data := buffer.take f.file_size }

end Fs

/-! ## Syscall dispatch (src/syscall.rs, src/syscall/display.rs) -/

namespace Syscall

set_option linter.unusedVariables false in
/-- `syscall_handler` (src/syscall.rs:104-111): prints the id and the four
arguments to the console and returns 0, for every id. -/
def syscall_handler (id arg0 arg1 arg2 arg3 : Nat) : Int := 0

/-- A UTF-8 continuation byte (`0x80..=0xBF`). -/
def isCont (b : Nat) : Bool := 0x80 ≤ b && b ≤ 0xBF

/-- Validity of a byte sequence as UTF-8, as checked by
`core::str::from_utf8`: ASCII; 2-byte `C2..DF`; 3-byte `E0 A0..BF`,
`E1..EC 80..BF`, `ED 80..9F`, `EE..EF 80..BF`; 4-byte `F0 90..BF`,
`F1..F3 80..BF`, `F4 80..8F`; each followed by continuation bytes. -/
def utf8Valid : List Nat → Bool
  | [] => true
  | b :: rest =>
    if b ≤ 0x7F then utf8Valid rest
    else if b < 0xC2 then false
    else if b ≤ 0xDF then
      match rest with
      | c1 :: rest' => isCont c1 && utf8Valid rest'
      | [] => false
    else if b ≤ 0xEF then
      match rest with
      | c1 :: c2 :: rest' =>
        (if b == 0xE0 then 0xA0 ≤ c1 && c1 ≤ 0xBF
         else if b == 0xED then 0x80 ≤ c1 && c1 ≤ 0x9F
         else isCont c1) && isCont c2 && utf8Valid rest'
      | _ => false
    else if b ≤ 0xF4 then
      match rest with
      | c1 :: c2 :: c3 :: rest' =>
        (if b == 0xF0 then 0x90 ≤ c1 && c1 ≤ 0xBF
         else if b == 0xF4 then 0x80 ≤ c1 && c1 ≤ 0x8F
         else isCont c1) && isCont c2 && isCont c3 && utf8Valid rest'
      | _ => false
    else false

/-- The `length` bytes at `text_addr` (`slice_from_raw_parts`), reading
byte memory `mem` with wrapping u64 pointer arithmetic. -/
def bytesAt (mem : Nat → Nat) (addr len : Nat) : List Nat :=
  (List.range len).map (fun i => mem ((addr + i) % 2 ^ 64) % 256)

/-- `print_vga_text` (src/syscall/display.rs:10-19): 0 on success, −1
when `from_utf8` fails.  (This function is not referenced by
`syscall_handler`; src/syscall.rs declares no submodules.) -/
def print_vga_text (mem : Nat → Nat) (text_addr length : Nat) : Int :=
  if utf8Valid (bytesAt mem text_addr length) then 0 else -1

end Syscall

/-! ## ACPI RSDP scan (src/acpi.rs) -/

namespace Acpi

/-- The bytes of `"RSD PTR "`. -/
def rsdpSignature : List Nat := [0x52, 0x53, 0x44, 0x20, 0x50, 0x54, 0x52, 0x20]

/-- Signature comparison at physical address `a`
(`id_str_bytes == b"RSD PTR "`). -/
def sigMatch (mem : Nat → Nat) (a : Nat) : Bool :=
  (List.range 8).all (fun i => mem (a + i) % 256 == rsdpSignature.getD i 0)

/-- `RSDPDescriptor::verify_checksum` (src/acpi.rs:54-61): the 20 bytes of
the packed descriptor are summed into a u32 (no overflow possible) and
the low byte must be zero. -/
def verify_checksum (mem : Nat → Nat) (a : Nat) : Bool :=
  ((List.range 20).map (fun i => mem (a + i) % 256)).sum % 256 == 0

/-- The `revision` field: byte 15 of the packed `RSDPDescriptor`
(signature 8 + checksum 1 + oem_id 6). -/
def revisionAt (mem : Nat → Nat) (a : Nat) : Nat := mem (a + 15) % 256

/-- Outcome of `find_rsdp`: an address, the `assert_eq!(revision, 0)`
panic, or `None`. -/
inductive FindRsdpResult where
  | found (addr : Nat)
  | panicked
  | notFound
  deriving DecidableEq, Repr

/-- The scan loop of `find_rsdp` (src/acpi.rs:106-119) over `n` addresses
starting at `a`, striding 16: on a signature match with a valid checksum
it asserts revision 0 and returns the address; a signature match with a
bad checksum falls through and the scan continues. -/
def rsdpScan (mem : Nat → Nat) : Nat → Nat → FindRsdpResult
  | _, 0 => .notFound
  | a, n + 1 =>
    if sigMatch mem a then
      if verify_checksum mem a then
        if revisionAt mem a == 0 then .found a else .panicked
      else rsdpScan mem (a + 16) n
    else rsdpScan mem (a + 16) n

/-- `find_rsdp` (src/acpi.rs:105-121): scan
`(0x80000..=0xFFFFF).step_by(0x10)`, i.e. the 32768 addresses
`0x80000 + 16*k`, `k < 32768`.  `mem` is physical byte memory (the code
reads through the identity offset map). -/
def find_rsdp (mem : Nat → Nat) : FindRsdpResult :=
  rsdpScan mem 0x80000 32768

/-- A signature-and-checksum match: the condition under which the scan
stops at an address. -/
def rsdpHit (mem : Nat → Nat) (a : Nat) : Bool :=
  sigMatch mem a && verify_checksum mem a

end Acpi

/-! ## ELF64 header validation (src/elf.rs) -/

namespace Elf

/-- `enum ElfVerifyError` (src/elf.rs:77-83). -/
inductive ElfVerifyError where
  | BadSliceSize (n : Nat)
  | BadMagicNum
  | Elf32Bit
  | BadEndianness
  | BadArch
  deriving DecidableEq, Repr

/-- The `ElfHeader` fields the claims need, as parsed from the packed
64-byte struct (src/elf.rs:27-47). -/
structure ElfHeader where
  magic_num : List Nat
  bits : Nat
  endianness : Nat
  instruction_set : Nat
  program_entry : Nat
  deriving DecidableEq, Repr

/-- Little-endian read of `n` bytes at offset `off`. -/
def readLE (bytes : List Nat) (off n : Nat) : Nat :=
  ((List.range n).map (fun i => bytes.getD (off + i) 0 * 256 ^ i)).sum

/-- Reinterpret a 64-byte slice as the packed `ElfHeader`: `magic_num` at
0, `bits` at 4, `endianness` at 5, `instruction_set : u16` at 18,
`program_entry : u64` at 24. -/
def parseHeader (bytes : List Nat) : ElfHeader :=
  { magic_num := bytes.take 4
    bits := bytes.getD 4 0
    endianness := bytes.getD 5 0
    instruction_set := readLE bytes 18 2
    program_entry := readLE bytes 24 8 }

/-- `size_of::<ElfHeader>()` = 64 for the packed struct. -/
def ELF_HEADER_SIZE : Nat := 64

/-- `ElfHeader::from_slice` (src/elf.rs:102-123). -/
def from_slice (bytes : List Nat) : Except ElfVerifyError ElfHeader :=
  if bytes.length ≠ ELF_HEADER_SIZE then .error (.BadSliceSize bytes.length)
  else
    let header := parseHeader bytes
    if header.magic_num ≠ [0x7F, 0x45, 0x4C, 0x46] then .error .BadMagicNum
    else if header.bits ≠ 2 then .error .Elf32Bit
    else if header.endianness ≠ 1 then .error .BadEndianness
    else if header.instruction_set ≠ 0x3E then .error .BadArch
    else .ok header

end Elf

/-! ## Concrete instances used by counterexamples and witnesses -/

/-- A quiescent AHCI port: task-file idle, CI bits clear, no interrupt
status. -/
def quietIO : Disk.PortIO := ⟨fun _ => 0, fun _ => 0, fun _ => 0⟩

/-- A port whose issued command never completes and whose
interrupt-status always shows TFES (bit 30). -/
def tfesIO : Disk.PortIO := ⟨fun _ => 0, fun _ => 1, fun _ => 2 ^ 30⟩

/-- Physical memory holding a 20-byte RSDP at 0x80000 whose signature and
checksum are valid but whose revision byte (offset 15) is 3: the bytes
sum to 543 + 222 + 3 = 768 = 3·256. -/
def rsdpMem0 : Nat → Nat := fun a =>
  if a < 0x80000 then 0
  else
    match a - 0x80000 with
    | 0 => 0x52 | 1 => 0x53 | 2 => 0x44 | 3 => 0x20
    | 4 => 0x50 | 5 => 0x54 | 6 => 0x52 | 7 => 0x20
    | 8 => 222 | 15 => 3
    | _ => 0

/-- A valid 64-byte ELF64 header: magic, class 2, data 1, machine 0x3E. -/
def goodElfBytes : List Nat :=
  [0x7F, 0x45, 0x4C, 0x46, 2, 1] ++ List.replicate 12 0 ++ [0x3E, 0] ++ List.replicate 44 0

/-- A one-region memory map with two usable frames (0 and 4096). -/
def twoFrameMap : List Memory.MemRegion := [⟨0, 0x2000, true⟩]

/-- A one-region memory map with three usable frames. -/
def threeFrameMap : List Memory.MemRegion := [⟨0, 0x3000, true⟩]

/-- A FAT32 boot sector: 512-byte sectors, 1 sector per cluster, 32
reserved sectors, 2 FATs of 8 sectors, no 16-bit root entries. -/
def bs512 : Fs.FatBootSector :=
  { bytes_per_sector := 512
    sectors_per_cluster := 1
    reserved_sector_count := 32
    table_count := 2
    root_entry_count := 0
    table_size_16 := 0
    table_size_32 := 8 }

/-- A directory entry for a 512-byte file at cluster 2. -/
def file512 : Fs.File := { cluster_h := 0, cluster_l := 2, file_size := 512 }

/-- A directory entry for a 100-byte file at cluster 2. -/
def file100 : Fs.File := { cluster_h := 0, cluster_l := 2, file_size := 100 }

/-- Byte memory that is 0xFF everywhere (never valid UTF-8). -/
def ffMem : Nat → Nat := fun _ => 0xFF

/-- A disk image whose bytes are all zero. -/
def zeroDisk : Nat → Nat := fun _ => 0

/-- A scheduler with one READY task (pid 5), current index 0, one tick
before the quantum expires, enabled. -/
def oneTaskSched : Sched.Scheduler :=
  { tasks := [{ state := .READY, pid := 5 }]
    current_task_ticks := 19
    next_task_id := 6
    current_task := 0
    is_enabled := true }

/-- The scheduler state after `tick oneTaskSched`: quantum expired, the
task rotated back to itself and is now RUNNING. -/
def oneTaskSchedAfter : Sched.Scheduler :=
  { tasks := [{ state := .RUNNING, pid := 5 }]
    current_task_ticks := 0
    next_task_id := 6
    current_task := 0
    is_enabled := true }

/-! ## C2 — `find_command_slot` and the NCS field -/

/-- C2: the claim says `find_command_slot` searches exactly the slots
reported by `CAP.NCS` (CAP bits 8..12).  The code iterates
`0..((CAP >> 8) & 0xF0)`, i.e. masks with `0xF0` instead of `0x1F`.
With `CAP = 0x100` the NCS field is 1 and slot 0 is free
(`((SACT|CI) >> 0) & 1 = 0`), so the claim requires `Some(0)`; the code
iterates an empty range and returns `None`. -/
theorem c2_find_command_slot_ignores_ncs :
    Disk.find_command_slot ⟨0x100, 0, 0⟩ = none ∧
    Disk.capNCS 0x100 = 1 ∧
    (((0 ||| 0 : Nat) >>> 0) &&& 1) = 0 := by
  decide

/-! ## C8 — ELF64 header validation -/

/-- C8: `ElfHeader::from_slice` returns `Ok` iff the slice is exactly the
64-byte ELF64 header size, begins with `7F 45 4C 46`, has class byte 2,
data byte 1, and little-endian machine field 0x3E; otherwise it returns
the error of the first failed check, in the order `BadSliceSize`,
`BadMagicNum`, `Elf32Bit`, `BadEndianness`, `BadArch`. -/
theorem c8_from_slice_validation (bytes : List Nat) :
    ((∃ h, Elf.from_slice bytes = .ok h) ↔
      (bytes.length = 64 ∧ bytes.take 4 = [0x7F, 0x45, 0x4C, 0x46] ∧
        bytes.getD 4 0 = 2 ∧ bytes.getD 5 0 = 1 ∧
        bytes.getD 18 0 + 256 * bytes.getD 19 0 = 0x3E)) ∧
    (bytes.length ≠ 64 →
      Elf.from_slice bytes = .error (.BadSliceSize bytes.length)) ∧
    (bytes.length = 64 → bytes.take 4 ≠ [0x7F, 0x45, 0x4C, 0x46] →
      Elf.from_slice bytes = .error .BadMagicNum) ∧
    (bytes.length = 64 → bytes.take 4 = [0x7F, 0x45, 0x4C, 0x46] →
      bytes.getD 4 0 ≠ 2 → Elf.from_slice bytes = .error .Elf32Bit) ∧
    (bytes.length = 64 → bytes.take 4 = [0x7F, 0x45, 0x4C, 0x46] →
      bytes.getD 4 0 = 2 → bytes.getD 5 0 ≠ 1 →
      Elf.from_slice bytes = .error .BadEndianness) ∧
    (bytes.length = 64 → bytes.take 4 = [0x7F, 0x45, 0x4C, 0x46] →
      bytes.getD 4 0 = 2 → bytes.getD 5 0 = 1 →
      bytes.getD 18 0 + 256 * bytes.getD 19 0 ≠ 0x3E →
      Elf.from_slice bytes = .error .BadArch) := by
  have hLE : Elf.readLE bytes 18 2 = bytes.getD 18 0 + 256 * bytes.getD 19 0 := by
    simp [Elf.readLE, List.range_succ]
    ring
  refine ⟨⟨?_, ?_⟩, ?_, ?_, ?_, ?_, ?_⟩
  · rintro ⟨h, hh⟩
    simp only [Elf.from_slice, Elf.parseHeader, Elf.ELF_HEADER_SIZE, hLE] at hh
    split_ifs at hh with h1 h2 h3 h4 h5
    all_goals simp_all
  · rintro ⟨hl, hm, hb, he, hi⟩
    refine ⟨Elf.parseHeader bytes, ?_⟩
    simp only [Elf.from_slice, Elf.parseHeader, Elf.ELF_HEADER_SIZE, hLE]
    rw [if_neg (by omega), if_neg (by simpa using hm), if_neg (by simpa using hb),
      if_neg (by simpa using he), if_neg (by simpa using hi)]
  · intro h1
    simp only [Elf.from_slice, Elf.ELF_HEADER_SIZE]
    rw [if_pos (by omega)]
  · intro h1 h2
    simp only [Elf.from_slice, Elf.parseHeader, Elf.ELF_HEADER_SIZE]
    rw [if_neg (by omega), if_pos h2]
  · intro h1 h2 h3
    simp only [Elf.from_slice, Elf.parseHeader, Elf.ELF_HEADER_SIZE]
    rw [if_neg (by omega), if_neg (by simpa using h2), if_pos h3]
  · intro h1 h2 h3 h4
    simp only [Elf.from_slice, Elf.parseHeader, Elf.ELF_HEADER_SIZE]
    rw [if_neg (by omega), if_neg (by simpa using h2), if_neg (by simpa using h3),
      if_pos h4]
  · intro h1 h2 h3 h4 h5
    simp only [Elf.from_slice, Elf.parseHeader, Elf.ELF_HEADER_SIZE, hLE]
    rw [if_neg (by omega), if_neg (by simpa using h2), if_neg (by simpa using h3),
      if_neg (by simpa using h4), if_pos h5]

/-- Witness for C8: the theorem applied at a valid header and at the
empty slice. -/
theorem c8_from_slice_validation_witness :
    (∃ h, Elf.from_slice goodElfBytes = .ok h) ∧
    Elf.from_slice [] = .error (.BadSliceSize 0) := by
  constructor
  · exact (c8_from_slice_validation goodElfBytes).1.2
      ⟨by decide, by decide, by decide, by decide, by decide⟩
  · exact (c8_from_slice_validation []).2.1 (by decide)

/-! ## C6 — syscall dispatch -/

/-- C6 counterexample: the claim says dispatch maps id 0 to
`print_vga_text`, returning −1 in `rax` for non-UTF-8 input.  On memory
holding the single byte 0xFF, `print_vga_text` yields −1, but the actual
`syscall_handler` (which dispatches nothing) returns 0 for id 0. -/
theorem c6_counterexample :
    Syscall.syscall_handler 0 0 1 0 0 = 0 ∧
    Syscall.print_vga_text ffMem 0 1 = -1 ∧
    Syscall.syscall_handler 0 0 1 0 0 ≠ Syscall.print_vga_text ffMem 0 1 := by
  refine ⟨rfl, by decide, by decide⟩

/-- C6 (amended): `syscall_handler` logs and returns 0 for every id, id 0
included — no id is dispatched to `print_vga_text`; `print_vga_text`
itself (dead code: src/syscall.rs declares no submodules) returns 0 on
success and −1 exactly when the `len` bytes at `ptr` are not valid
UTF-8. -/
theorem c6_amended (id arg0 arg1 arg2 arg3 : Nat) (mem : Nat → Nat) (addr len : Nat) :
    Syscall.syscall_handler id arg0 arg1 arg2 arg3 = 0 ∧
    (Syscall.print_vga_text mem addr len = 0 ∨ Syscall.print_vga_text mem addr len = -1) ∧
    (Syscall.print_vga_text mem addr len = -1 ↔
      Syscall.utf8Valid (Syscall.bytesAt mem addr len) = false) := by
  refine ⟨rfl, ?_, ?_⟩ <;> unfold Syscall.print_vga_text <;>
    rcases h : Syscall.utf8Valid (Syscall.bytesAt mem addr len) <;> simp

/-- Witness for C6 (amended): an unknown id returns 0 and
`print_vga_text` on the 0xFF byte yields −1. -/
theorem c6_amended_witness :
    Syscall.syscall_handler 7 0 0 0 0 = 0 ∧
    (Syscall.print_vga_text ffMem 0 1 = 0 ∨ Syscall.print_vga_text ffMem 0 1 = -1) ∧
    (Syscall.print_vga_text ffMem 0 1 = -1 ↔
      Syscall.utf8Valid (Syscall.bytesAt ffMem 0 1) = false) :=
  c6_amended 7 0 0 0 0 ffMem 0 1

/-! ## C5 — FAT32 `get_data` sector count -/

/-- C5 counterexample: for a 512-byte file on a 512-byte-per-sector
volume, `ceil(file_size / bytes_per_sector) = 1`, but `get_data` computes
`file_size / bytes_per_sector + 1 = 2` sectors. -/
theorem c5_counterexample :
    (file512.get_data bs512 zeroDisk).sector_count = 2 ∧
    (512 + 512 - 1) / 512 = 1 ∧ (2 : Nat) ≠ 1 := by
  refine ⟨rfl, by norm_num, by norm_num⟩

/-- C5 (amended): `get_data` reads `file_size / bytes_per_sector + 1`
sectors — that is `ceil(file_size / bytes_per_sector)` when
`bytes_per_sector` does not divide `file_size`, and one sector more when
it does — starting at the file's first cluster's first sector, and
returns a buffer of exactly `file_size` bytes (the read data truncated to
the file size).  Hypotheses keep the `u16` cast of the sector count and
the `set_len` truncation in range. -/
theorem c5_amended (bs : Fs.FatBootSector) (f : Fs.File) (disk : Nat → Nat)
    (hbps : 0 < bs.bytes_per_sector)
    (hcount : f.file_size / bs.bytes_per_sector + 1 < 2 ^ 16)
    (hfit : f.file_size ≤ 512 * (f.file_size / bs.bytes_per_sector + 1)) :
    (f.get_data bs disk).sector_count = f.file_size / bs.bytes_per_sector + 1 ∧
    (f.get_data bs disk).first_sector = Fs.firstSector bs f ∧
    (f.get_data bs disk).data.length = f.file_size ∧
    (¬ bs.bytes_per_sector ∣ f.file_size →
      f.file_size / bs.bytes_per_sector + 1 =
        (f.file_size + bs.bytes_per_sector - 1) / bs.bytes_per_sector) := by
  have h32 : Fs.sectorCount bs f = f.file_size / bs.bytes_per_sector + 1 := by
    unfold Fs.sectorCount Fs.M32
    exact Nat.mod_eq_of_lt (by omega)
  have h16 : Fs.sectorCount bs f % Fs.M16 = f.file_size / bs.bytes_per_sector + 1 := by
    rw [h32]
    exact Nat.mod_eq_of_lt hcount
  refine ⟨h16, rfl, ?_, ?_⟩
  · show ((List.range (512 * (Fs.sectorCount bs f % Fs.M16))).map _ |>.take f.file_size).length = _
    rw [List.length_take, List.length_map, List.length_range, h16]
    omega
  · intro hdvd
    have hmod : f.file_size % bs.bytes_per_sector ≠ 0 :=
      fun h => hdvd (Nat.dvd_of_mod_eq_zero h)
    have hlt : f.file_size % bs.bytes_per_sector < bs.bytes_per_sector :=
      Nat.mod_lt _ hbps
    have hdm := Nat.div_add_mod f.file_size bs.bytes_per_sector
    have hdist : bs.bytes_per_sector * (f.file_size / bs.bytes_per_sector + 1) =
        bs.bytes_per_sector * (f.file_size / bs.bytes_per_sector) + bs.bytes_per_sector := by
      ring
    have hsplit : f.file_size + bs.bytes_per_sector - 1 =
        bs.bytes_per_sector * (f.file_size / bs.bytes_per_sector + 1)
          + (f.file_size % bs.bytes_per_sector - 1) := by omega
    rw [hsplit, Nat.mul_add_div hbps]
    have hz : (f.file_size % bs.bytes_per_sector - 1) / bs.bytes_per_sector = 0 :=
      Nat.div_eq_of_lt (by omega)
    omega

/-- Witness for C5 (amended): a 100-byte file on 512-byte sectors. -/
theorem c5_amended_witness :
    (file100.get_data bs512 zeroDisk).sector_count = 100 / 512 + 1 ∧
    (file100.get_data bs512 zeroDisk).first_sector = Fs.firstSector bs512 file100 ∧
    (file100.get_data bs512 zeroDisk).data.length = 100 ∧
    (¬ (512 : Nat) ∣ 100 → 100 / 512 + 1 = (100 + 512 - 1) / 512) :=
  c5_amended bs512 file100 zeroDisk (by decide) (by decide) (by decide)

/-! ## C9 — frame allocators -/

/-- The results of `n` `LinearFrameAllocator::allocate_frame` calls from
counter value `m` (no usize wrap) are the usable frames at indices
`m+1, m+2, …` — index `m` is skipped by the pre-increment. -/
theorem linearRunN_eq (memoryMap : List Memory.MemRegion) (m n : Nat)
    (h : m + n < Sched.U64) :
    (Memory.linearRunN ⟨memoryMap, m⟩ n).1 =
      (List.range n).map (fun k => (Memory.usable_frames memoryMap)[m + 1 + k]?) := by
  induction n generalizing m with
  | zero => simp [Memory.linearRunN]
  | succ n ih =>
    have hm : (m + 1) % Sched.U64 = m + 1 := Nat.mod_eq_of_lt (by omega)
    have key : ∀ k : Nat, m + 1 + 1 + k = m + 1 + (k + 1) := by omega
    simp only [Memory.linearRunN, Memory.LinearFrameAllocator.allocate_frame, hm,
      ih (m + 1) (by omega), List.range_succ_eq_map, List.map_cons, List.map_map,
      Function.comp, Nat.succ_eq_add_one, key]
    norm_num

/-- The results of `n` `BootInfoFrameAllocator::allocate_frame` calls on
a state holding the frame list `l` are `l`'s elements in order. -/
theorem bootRunN_eq : ∀ (n : Nat) (l : List Nat),
    (Memory.bootRunN ⟨l⟩ n).1 = (List.range n).map (fun k => l[k]?) := by
  intro n
  induction n with
  | zero =>
    intro l
    simp [Memory.bootRunN]
  | succ n ih =>
    intro l
    have key : ∀ k : Nat, l.tail[k]? = l[k + 1]? := by
      intro k
      rcases l with _ | ⟨a, l2⟩
      · simp
      · simp
    simp only [Memory.bootRunN, Memory.BootInfoFrameAllocator.allocate_frame, ih,
      List.range_succ_eq_map, List.map_cons, List.map_map, Function.comp,
      Nat.succ_eq_add_one, key, List.head?_eq_getElem?]
    simp [Function.comp_def]

/-- C9 counterexample: on a map whose usable frames are `[0, 4096]`, the
first `LinearFrameAllocator::allocate_frame` call returns frame 4096, not
the first usable frame 0 (the counter is incremented before `nth`). -/
theorem c9_counterexample :
    Memory.usable_frames twoFrameMap = [0, 4096] ∧
    (Memory.LinearFrameAllocator.init twoFrameMap).allocate_frame.1 = some 4096 ∧
    some (4096 : Nat) ≠ some (0 : Nat) := by
  refine ⟨by decide, by decide, by decide⟩

/-- C9 (amended): `LinearFrameAllocator` pre-increments its counter, so a
run of `n` calls returns the usable frames at indices `1, 2, …, n` — the
first call returns the *second* usable frame and frame 0 is never
returned by it; `BootInfoFrameAllocator` initialized with `used` skipped
frames returns the usable frames at indices `used, used+1, …` in order,
so with `used = 0` its first call does return the first usable frame.
When the usable-frame list computed from the memory map is
duplicate-free (as it is for a boot memory map whose usable regions are
disjoint), each allocator returns any usable frame at most once; and
once the frames are exhausted either allocator returns `none`. -/
theorem c9_amended (memoryMap : List Memory.MemRegion) (n : Nat) (h : n < Sched.U64) :
    ((Memory.linearRunN (Memory.LinearFrameAllocator.init memoryMap) n).1 =
      (List.range n).map (fun k => (Memory.usable_frames memoryMap)[k + 1]?)) ∧
    ((Memory.usable_frames memoryMap).Nodup →
      ∀ i j f, i < j → j < n →
        (Memory.linearRunN (Memory.LinearFrameAllocator.init memoryMap) n).1[i]? =
          some (some f) →
        (Memory.linearRunN (Memory.LinearFrameAllocator.init memoryMap) n).1[j]? =
          some (some f) →
        False) ∧
    (∀ used, (Memory.bootRunN (Memory.BootInfoFrameAllocator.init memoryMap used) n).1 =
      (List.range n).map (fun k => (Memory.usable_frames memoryMap)[used + k]?)) ∧
    ((Memory.usable_frames memoryMap).Nodup →
      ∀ used i j f, i < j → j < n →
        (Memory.bootRunN (Memory.BootInfoFrameAllocator.init memoryMap used) n).1[i]? =
          some (some f) →
        (Memory.bootRunN (Memory.BootInfoFrameAllocator.init memoryMap used) n).1[j]? =
          some (some f) →
        False) ∧
    ((Memory.BootInfoFrameAllocator.init memoryMap 0).allocate_frame.1 =
      (Memory.usable_frames memoryMap).head?) ∧
    (∀ s : Memory.LinearFrameAllocator,
      (Memory.usable_frames s.memory_map).length ≤ s.next + 1 →
      s.next + 1 < Sched.U64 → s.allocate_frame.1 = none) ∧
    (∀ b : Memory.BootInfoFrameAllocator, b.frames = [] → b.allocate_frame.1 = none) := by
  have hrun : (Memory.linearRunN (Memory.LinearFrameAllocator.init memoryMap) n).1 =
      (List.range n).map (fun k => (Memory.usable_frames memoryMap)[k + 1]?) := by
    have := linearRunN_eq memoryMap 0 n (by omega)
    simpa [Memory.LinearFrameAllocator.init, Nat.add_comm] using this
  have hboot : ∀ used,
      (Memory.bootRunN (Memory.BootInfoFrameAllocator.init memoryMap used) n).1 =
        (List.range n).map (fun k => (Memory.usable_frames memoryMap)[used + k]?) := by
    intro used
    have := bootRunN_eq n ((Memory.usable_frames memoryMap).drop used)
    simpa [Memory.BootInfoFrameAllocator.init, List.getElem?_drop] using this
  refine ⟨hrun, ?_, hboot, ?_, ?_, ?_, ?_⟩
  · intro hnodup i j f hij hjn hi hj
    rw [hrun, List.getElem?_map, List.getElem?_range (by omega)] at hi hj
    simp only [Option.map_some', Option.some_inj] at hi hj
    have hlen : i + 1 < (Memory.usable_frames memoryMap).length := by
      rcases List.getElem?_eq_some.mp hi with ⟨hl, _⟩
      exact hl
    have := List.getElem?_inj hlen hnodup (hi.trans hj.symm)
    omega
  · intro hnodup used i j f hij hjn hi hj
    rw [hboot used, List.getElem?_map, List.getElem?_range (by omega)] at hi hj
    simp only [Option.map_some', Option.some_inj] at hi hj
    have hlen : used + i < (Memory.usable_frames memoryMap).length := by
      rcases List.getElem?_eq_some.mp hi with ⟨hl, _⟩
      exact hl
    have := List.getElem?_inj hlen hnodup (hi.trans hj.symm)
    omega
  · simp [Memory.BootInfoFrameAllocator.init, Memory.BootInfoFrameAllocator.allocate_frame]
  · intro s hlen hlt
    simp only [Memory.LinearFrameAllocator.allocate_frame, Nat.mod_eq_of_lt hlt]
    exact List.getElem?_eq_none hlen
  · intro b hb
    simp [Memory.BootInfoFrameAllocator.allocate_frame, hb]

/-- Witness for C9 (amended): on a three-frame map, two
`LinearFrameAllocator` calls return frames 4096 and 8192 (skipping frame
0), while two `BootInfoFrameAllocator` calls (with `used = 0`) return
frames 0 and 4096 — the first usable frame first. -/
theorem c9_amended_witness :
    (Memory.linearRunN (Memory.LinearFrameAllocator.init threeFrameMap) 2).1 =
      [some 4096, some 8192] ∧
    (Memory.bootRunN (Memory.BootInfoFrameAllocator.init threeFrameMap 0) 2).1 =
      [some 0, some 4096] ∧
    (Memory.BootInfoFrameAllocator.init threeFrameMap 0).allocate_frame.1 = some 0 :=
  ⟨((c9_amended threeFrameMap 2 (by norm_num [Sched.U64])).1).trans (by decide),
   (((c9_amended threeFrameMap 2 (by norm_num [Sched.U64])).2.2.1) 0).trans (by decide),
   ((c9_amended threeFrameMap 2 (by norm_num [Sched.U64])).2.2.2.2.1).trans (by decide)⟩

/-! ## C10 — PID assignment -/

/-- Closed form of the PIDs returned by `n` successive `push_task` calls:
the `k`-th push returns `(next_task_id + 2k + 1) mod 2^64`. -/
theorem pushN_pids (s : Sched.Scheduler) (n : Nat) :
    (Sched.pushN s n).2 =
      (List.range n).map (fun k => (s.next_task_id + (2 * k + 1)) % Sched.U64) := by
  induction n generalizing s with
  | zero => simp [Sched.pushN]
  | succ n ih =>
    have key : ∀ k : Nat,
        (((s.next_task_id + 1) % Sched.U64 + 1) % Sched.U64 + (2 * k + 1)) % Sched.U64 =
          (s.next_task_id + (2 * (k + 1) + 1)) % Sched.U64 := by
      intro k
      rw [Nat.mod_add_mod, Nat.add_assoc, Nat.mod_add_mod]
      congr 1
      omega
    simp only [Sched.pushN, Sched.push_task, ih, List.range_succ_eq_map, List.map_cons,
      List.map_map, Function.comp, Nat.succ_eq_add_one, key]
    norm_num

/-- C10 counterexample: `next_task_id` is a wrapping `u64`, so after
`2^63 + 1` pushes the PID 1 returned by the first call is returned again
by the last call — the PID list is neither duplicate-free nor strictly
increasing. -/
theorem c10_counterexample :
    ¬ (Sched.pushN Sched.initScheduler (2 ^ 63 + 1)).2.Nodup ∧
    ¬ (Sched.pushN Sched.initScheduler (2 ^ 63 + 1)).2.Pairwise (· < ·) := by
  have hform := pushN_pids Sched.initScheduler (2 ^ 63 + 1)
  have h0 : (Sched.pushN Sched.initScheduler (2 ^ 63 + 1)).2[0]? = some 1 := by
    rw [hform, List.getElem?_map, List.getElem?_range (by norm_num)]
    simp only [Option.map_some']
    norm_num [Sched.initScheduler, Sched.U64]
  have h1 : (Sched.pushN Sched.initScheduler (2 ^ 63 + 1)).2[2 ^ 63]? = some 1 := by
    rw [hform, List.getElem?_map, List.getElem?_range (by norm_num)]
    simp only [Option.map_some']
    norm_num [Sched.initScheduler, Sched.U64]
  constructor
  · intro hnodup
    have hlen : 0 < (Sched.pushN Sched.initScheduler (2 ^ 63 + 1)).2.length := by
      rcases List.getElem?_eq_some.mp h0 with ⟨hl, _⟩
      omega
    have := List.getElem?_inj hlen hnodup (h0.trans h1.symm)
    norm_num at this
  · intro hp
    rw [List.pairwise_iff_getElem] at hp
    rcases List.getElem?_eq_some.mp h0 with ⟨hl0, hv0⟩
    rcases List.getElem?_eq_some.mp h1 with ⟨hl1, hv1⟩
    have := hp 0 (2 ^ 63) hl0 hl1 (by norm_num)
    rw [hv0, hv1] at this
    exact lt_irrefl 1 this

/-- C10 (amended): as long as no `u64` wrap occurs — at most `2^63`
pushes from the initial scheduler — the returned PIDs (the odd numbers
`1, 3, 5, …`) are strictly increasing and pairwise distinct. -/
theorem c10_amended (n : Nat) (h : n ≤ 2 ^ 63) :
    (Sched.pushN Sched.initScheduler n).2.Pairwise (· < ·) ∧
    (Sched.pushN Sched.initScheduler n).2.Nodup := by
  have e63 : (2 : Nat) ^ 63 = 9223372036854775808 := by norm_num
  have e64 : Sched.U64 = 18446744073709551616 := by norm_num [Sched.U64]
  have hmono : (Sched.pushN Sched.initScheduler n).2.Pairwise (· < ·) := by
    rw [pushN_pids, List.pairwise_iff_getElem]
    intro i j hi hj hij
    simp only [List.length_map, List.length_range] at hi hj
    simp only [List.getElem_map, List.getElem_range]
    have e0 : Sched.initScheduler.next_task_id = 0 := rfl
    rw [e0, Nat.zero_add, Nat.zero_add, Nat.mod_eq_of_lt (by omega),
      Nat.mod_eq_of_lt (by omega)]
    omega
  exact ⟨hmono, hmono.imp Nat.ne_of_lt⟩

/-- Witness for C10 (amended): three pushes. -/
theorem c10_amended_witness :
    (Sched.pushN Sched.initScheduler 3).2.Pairwise (· < ·) ∧
    (Sched.pushN Sched.initScheduler 3).2.Nodup :=
  c10_amended 3 (by norm_num)

/-! ## C4 — per-process page tables -/

/-- Value of the `for i in s..s+len { dst[i] = src[i] }` copy loop:
inside the copied range the source entry, outside it the original. -/
theorem copyRange_apply (dst src : Proc.PageTable) (s len i : Nat) :
    ((List.range' s len).foldl (fun t j => Proc.ptSet t j (src j)) dst) i =
      if s ≤ i ∧ i < s + len then src i else dst i := by
  induction len generalizing dst s with
  | zero =>
    simp only [List.range', List.foldl_nil]
    rw [if_neg (by omega)]
  | succ len ih =>
    rw [List.range'_succ, List.foldl_cons, ih]
    by_cases hi : i = s
    · subst hi
      rw [if_neg (by omega), if_pos (by omega)]
      simp [Proc.ptSet]
    · unfold Proc.ptSet
      by_cases hin : s + 1 ≤ i ∧ i < s + 1 + len
      · rw [if_pos hin, if_pos (by omega)]
      · rw [if_neg hin, if_neg hi, if_neg (by omega)]

set_option maxRecDepth 4000 in
/-- C4: for every successful `Process::new_page_table`, entries 1..511 of
the new PML4 are bit-equal to the kernel PML4's entries, and entries
1..511 of the new entry-0 PDPT are bit-equal to the kernel's entry-0 PDPT
entries. -/
theorem c4_new_page_table_kernel_copy (cur cur0 cur00 : Proc.PageTable)
    (alloc : Memory.BootInfoFrameAllocator) (g2 : Proc.PageTable)
    (res : Proc.NewPTResult)
    (h : Proc.new_page_table cur cur0 cur00 alloc g2 = some res)
    (i : Nat) (h1 : 1 ≤ i) (h2 : i ≤ 511) :
    res.pml4 i = cur i ∧ res.pdpt0 i = cur0 i := by
  rcases ha1 : alloc.allocate_frame with ⟨o1, a1⟩
  rcases o1 with _ | f1
  · simp only [Proc.new_page_table, ha1] at h
    cases h
  · rcases ha2 : a1.allocate_frame with ⟨o2, a2⟩
    rcases o2 with _ | f2
    · simp only [Proc.new_page_table, ha1, ha2] at h
      cases h
    · simp only [Proc.new_page_table, ha1, ha2, Option.some_inj] at h
      subst h
      constructor
      · show Proc.copy1to511 (Proc.ptSet Proc.ptZero 0 (f1 ||| Proc.FLAGS_PWU)) cur i = cur i
        unfold Proc.copy1to511
        rw [copyRange_apply, if_pos (by omega)]
      · show Proc.ptSet (Proc.copy1to511 Proc.ptZero cur0) 0 (f2 ||| Proc.FLAGS_PW) i = cur0 i
        unfold Proc.ptSet
        rw [if_neg (by omega)]
        unfold Proc.copy1to511
        rw [copyRange_apply, if_pos (by omega)]

/-- Witness for C4: a two-frame allocator; entry 5 of both new tables
equals the kernel entry. -/
theorem c4_new_page_table_kernel_copy_witness :
    ((Proc.new_page_table Proc.ptZero Proc.ptZero Proc.ptZero ⟨[0, 4096]⟩ Proc.ptZero).getD
        ⟨Proc.ptZero, Proc.ptZero, Proc.ptZero, ⟨[]⟩⟩).pml4 5 = Proc.ptZero 5 ∧
    ((Proc.new_page_table Proc.ptZero Proc.ptZero Proc.ptZero ⟨[0, 4096]⟩ Proc.ptZero).getD
        ⟨Proc.ptZero, Proc.ptZero, Proc.ptZero, ⟨[]⟩⟩).pdpt0 5 = Proc.ptZero 5 := by
  rcases hsome : Proc.new_page_table Proc.ptZero Proc.ptZero Proc.ptZero ⟨[0, 4096]⟩
      Proc.ptZero with _ | res
  · have hs : (Proc.new_page_table Proc.ptZero Proc.ptZero Proc.ptZero ⟨[0, 4096]⟩
        Proc.ptZero).isSome = true := by decide
    rw [hsome] at hs
    cases hs
  · simp only [Option.getD_some]
    exact c4_new_page_table_kernel_copy Proc.ptZero Proc.ptZero Proc.ptZero ⟨[0, 4096]⟩
      Proc.ptZero res hsome 5 (by norm_num) (by norm_num)

/-! ## C7 — RSDP scan -/

/-- One unrolling of the scan: on a signature+checksum hit the scan stops
(found or assertion failure); otherwise it advances 16 bytes. -/
theorem rsdpScan_succ (mem : Nat → Nat) (a n : Nat) :
    Acpi.rsdpScan mem a (n + 1) =
      if Acpi.rsdpHit mem a then
        (if Acpi.revisionAt mem a == 0 then .found a else .panicked)
      else Acpi.rsdpScan mem (a + 16) n := by
  conv_lhs => unfold Acpi.rsdpScan
  unfold Acpi.rsdpHit
  rcases hs : Acpi.sigMatch mem a
  · simp [hs]
  · rcases hc : Acpi.verify_checksum mem a
    · simp [hs, hc]
    · simp [hs, hc]

/-- A scan over `n` stride-16 addresses from `a` returns `found r` iff
`r` is the first scanned address with a signature+checksum hit and its
revision byte is 0. -/
theorem rsdpScan_found_iff (mem : Nat → Nat) (n : Nat) : ∀ a r : Nat,
    Acpi.rsdpScan mem a n = .found r ↔
      ∃ k < n, r = a + 16 * k ∧ Acpi.rsdpHit mem r = true ∧ Acpi.revisionAt mem r = 0 ∧
        ∀ j < k, Acpi.rsdpHit mem (a + 16 * j) = false := by
  induction n with
  | zero =>
    intro a r
    simp [Acpi.rsdpScan]
  | succ n ih =>
    intro a r
    rw [rsdpScan_succ]
    rcases h : Acpi.rsdpHit mem a
    · rw [if_neg (by simp [h]), ih]
      constructor
      · rintro ⟨k, hk, hr, hh, hrev, hprev⟩
        refine ⟨k + 1, by omega, by omega, hh, hrev, ?_⟩
        intro j hj
        rcases j with _ | j
        · simpa using h
        · have := hprev j (by omega)
          have harith : a + 16 * (j + 1) = a + 16 + 16 * j := by omega
          rw [harith]
          exact this
      · rintro ⟨k, hk, hr, hh, hrev, hprev⟩
        rcases k with _ | k
        · exfalso
          rw [show a + 16 * 0 = a by omega] at hr
          rw [hr] at hh
          rw [h] at hh
          cases hh
        · refine ⟨k, by omega, by omega, hh, hrev, ?_⟩
          intro j hj
          have := hprev (j + 1) (by omega)
          have harith : a + 16 * (j + 1) = a + 16 + 16 * j := by omega
          rw [harith] at this
          exact this
    · rw [if_pos (by simp [h])]
      rcases hrev : Acpi.revisionAt mem a == 0
      · rw [if_neg (by simp [hrev])]
        constructor
        · intro hcontra
          cases hcontra
        · rintro ⟨k, hk, hr, hh, hrev2, hprev⟩
          rcases k with _ | k
          · exfalso
            rw [show a + 16 * 0 = a by omega] at hr
            rw [hr] at hrev2
            simp [hrev2] at hrev
          · exfalso
            have := hprev 0 (by omega)
            rw [show a + 16 * 0 = a by omega] at this
            rw [h] at this
            cases this
      · rw [if_pos (by simp [hrev])]
        constructor
        · intro hfound
          cases hfound
          refine ⟨0, by omega, by omega, h, by simpa using hrev, ?_⟩
          intro j hj
          exact absurd hj (by omega)
        · rintro ⟨k, hk, hr, hh, hrev2, hprev⟩
          rcases k with _ | k
          · rw [show a + 16 * 0 = a by omega] at hr
            rw [hr]
          · exfalso
            have := hprev 0 (by omega)
            rw [show a + 16 * 0 = a by omega] at this
            rw [h] at this
            cases this

/-- A scan over `n` stride-16 addresses from `a` returns `notFound` iff no
scanned address has a signature+checksum hit. -/
theorem rsdpScan_notFound_iff (mem : Nat → Nat) (n : Nat) : ∀ a : Nat,
    Acpi.rsdpScan mem a n = .notFound ↔
      ∀ k < n, Acpi.rsdpHit mem (a + 16 * k) = false := by
  induction n with
  | zero =>
    intro a
    simp [Acpi.rsdpScan]
  | succ n ih =>
    intro a
    rw [rsdpScan_succ]
    rcases h : Acpi.rsdpHit mem a
    · rw [if_neg (by simp [h]), ih]
      constructor
      · intro hall j hj
        rcases j with _ | j
        · simpa using h
        · have := hall j (by omega)
          have harith : a + 16 * (j + 1) = a + 16 + 16 * j := by omega
          rw [harith]
          exact this
      · intro hall j hj
        have := hall (j + 1) (by omega)
        have harith : a + 16 * (j + 1) = a + 16 + 16 * j := by omega
        rw [harith] at this
        exact this
    · rw [if_pos (by simp [h])]
      constructor
      · intro hcontra
        rcases hrev : Acpi.revisionAt mem a == 0
        · rw [if_neg (by simp [hrev])] at hcontra
          cases hcontra
        · rw [if_pos (by simp [hrev])] at hcontra
          cases hcontra
      · intro hall
        exfalso
        have := hall 0 (by omega)
        rw [show a + 16 * 0 = a by omega] at this
        rw [h] at this
        cases this

/-- C7 counterexample: `rsdpMem0` carries a valid signature and a valid
20-byte checksum at the 16-aligned address 0x80000, so the claim requires
`find_rsdp` to return it; but its revision byte is 3 and the code instead
fails the `assert_eq!(revision, 0)` (a panic, not a return). -/
theorem c7_counterexample :
    Acpi.find_rsdp rsdpMem0 = .panicked ∧
    Acpi.sigMatch rsdpMem0 0x80000 = true ∧
    Acpi.verify_checksum rsdpMem0 0x80000 = true ∧
    Acpi.find_rsdp rsdpMem0 ≠ .found 0x80000 := by
  refine ⟨by decide, by decide, by decide, by decide⟩

/-- C7 (amended): `find_rsdp` returns `Some r` exactly when `r` is the
lowest of the scanned addresses `0x80000 + 16k (k < 32768)` — the
16-byte-aligned addresses of `[0x80000, 0xFFFFF]` — whose first 8 bytes
are `"RSD PTR "` and whose 20-byte additive checksum is 0 mod 256, *and*
whose revision byte is 0 (a first match with nonzero revision makes the
`assert_eq!` panic instead); it returns `None` exactly when no scanned
address carries both signature and valid checksum. -/
theorem c7_amended (mem : Nat → Nat) :
    (∀ r, Acpi.find_rsdp mem = .found r ↔
      ∃ k < 32768, r = 0x80000 + 16 * k ∧
        (Acpi.sigMatch mem r = true ∧ Acpi.verify_checksum mem r = true) ∧
        Acpi.revisionAt mem r = 0 ∧
        ∀ j < k, ¬ (Acpi.sigMatch mem (0x80000 + 16 * j) = true ∧
          Acpi.verify_checksum mem (0x80000 + 16 * j) = true)) ∧
    (Acpi.find_rsdp mem = .notFound ↔
      ∀ k < 32768, ¬ (Acpi.sigMatch mem (0x80000 + 16 * k) = true ∧
        Acpi.verify_checksum mem (0x80000 + 16 * k) = true)) := by
  have hhit : ∀ a, Acpi.rsdpHit mem a = true ↔
      (Acpi.sigMatch mem a = true ∧ Acpi.verify_checksum mem a = true) := by
    intro a
    simp [Acpi.rsdpHit, Bool.and_eq_true]
  have hmiss : ∀ a, Acpi.rsdpHit mem a = false ↔
      ¬ (Acpi.sigMatch mem a = true ∧ Acpi.verify_checksum mem a = true) := by
    intro a
    rw [← hhit a]
    simp
  constructor
  · intro r
    rw [Acpi.find_rsdp, rsdpScan_found_iff]
    constructor
    · rintro ⟨k, hk, hr, hh, hrev, hprev⟩
      exact ⟨k, hk, hr, (hhit r).mp hh, hrev, fun j hj => (hmiss _).mp (hprev j hj)⟩
    · rintro ⟨k, hk, hr, hh, hrev, hprev⟩
      exact ⟨k, hk, hr, (hhit r).mpr hh, hrev, fun j hj => (hmiss _).mpr (hprev j hj)⟩
  · rw [Acpi.find_rsdp, rsdpScan_notFound_iff]
    constructor
    · intro hall k hk
      exact (hmiss _).mp (hall k hk)
    · intro hall k hk
      exact (hmiss _).mpr (hall k hk)

/-- Witness for C7 (amended): the characterization applied to the
concrete memory `rsdpMem0`. -/
theorem c7_amended_witness :
    Acpi.find_rsdp rsdpMem0 = .notFound ↔
      ∀ k < 32768, ¬ (Acpi.sigMatch rsdpMem0 (0x80000 + 16 * k) = true ∧
        Acpi.verify_checksum rsdpMem0 (0x80000 + 16 * k) = true) :=
  (c7_amended rsdpMem0).2

/-! ## C1 — disk hardware error surfacing -/

/-- If the slot's CI bit stays set and the first TFES observation (bit 30
of IS) happens at poll `m` within the fuel, the completion poll reports
`TaskFileError`. -/
theorem ciPoll_tfes (slot : Nat) (io : Disk.PortIO) : ∀ (m k fuel : Nat),
    m < fuel →
    (∀ j, j ≤ m → (io.ci (k + j) >>> slot) &&& 1 = 1) →
    ((io.is (k + m) >>> 30) &&& 1 = 1) →
    (∀ j, j < m → (io.is (k + j) >>> 30) &&& 1 = 0) →
    Disk.ciPoll slot io k fuel = some (.error .TaskFileError) := by
  intro m
  induction m with
  | zero =>
    intro k fuel hf hci his _
    rcases fuel with _ | fuel
    · omega
    · have h1 : (io.ci k >>> slot) &&& 1 = 1 := by simpa using hci 0 (by omega)
      have h2 : (io.is k >>> 30) &&& 1 = 1 := by simpa using his
      simp [Disk.ciPoll, h1, h2]
  | succ m ih =>
    intro k fuel hf hci his hfirst
    rcases fuel with _ | fuel
    · omega
    · have h1 : (io.ci k >>> slot) &&& 1 = 1 := by simpa using hci 0 (by omega)
      have h2 : (io.is k >>> 30) &&& 1 = 0 := by simpa using hfirst 0 (by omega)
      have hrec := ih (k + 1) fuel (by omega)
        (fun j hj => by
          have := hci (j + 1) (by omega)
          rwa [show k + (j + 1) = k + 1 + j by omega] at this)
        (by
          have := his
          rwa [show k + (m + 1) = k + 1 + m by omega] at this)
        (fun j hj => by
          have := hfirst (j + 1) (by omega)
          rwa [show k + (j + 1) = k + 1 + j by omega] at this)
      simp [Disk.ciPoll, h1, h2, hrec]

/-- C1 counterexample: with `CAP = 0` no command slot is ever free, and
`read_sectors`/`write_sectors` panic in
`find_command_slot(...).expect("No free command slots")` instead of
returning the `NoCommandSlots` error the claim requires. -/
theorem c1_counterexample :
    Disk.read_sectors ⟨0, 0, 0⟩ quietIO true 1 5 = .panicked ∧
    Disk.read_sectors ⟨0, 0, 0⟩ quietIO true 1 5 ≠ .err .NoCommandSlots ∧
    Disk.write_sectors ⟨0, 0, 0⟩ quietIO true 1 5 = .panicked ∧
    Disk.write_sectors ⟨0, 0, 0⟩ quietIO true 1 5 ≠ .err .NoCommandSlots := by
  refine ⟨by decide, by decide, by decide, by decide⟩

/-- C1 (amended): (i) when `find_command_slot` finds no free slot, both
`read_sectors` and `write_sectors` panic in `expect` — they do not return
an error value and do not keep polling; (ii) the `NoCommandSlots` error
value is instead returned when the output buffer's physical-address
translation fails; (iii) when the port's interrupt-status bit 30
(task-file error) sets while polling for command completion, both calls
return the `TaskFileError` error — in that case the call neither panics
nor diverges. -/
theorem c1_amended (regs : Disk.PortRegs) (io : Disk.PortIO) (sc fuel : Nat) :
    (Disk.find_command_slot regs = none →
      Disk.read_sectors regs io true sc fuel = .panicked ∧
      Disk.write_sectors regs io true sc fuel = .panicked) ∧
    (∀ slot, Disk.find_command_slot regs = some slot →
      Disk.read_sectors regs io false sc fuel = .err .NoCommandSlots ∧
      Disk.write_sectors regs io false sc fuel = .err .NoCommandSlots) ∧
    (∀ slot k m, Disk.find_command_slot regs = some slot →
      Disk.tfdWait io.tfd 0 fuel = some k →
      m < fuel →
      (∀ j, j ≤ m → (io.ci j >>> slot) &&& 1 = 1) →
      ((io.is m >>> 30) &&& 1 = 1) →
      (∀ j, j < m → (io.is j >>> 30) &&& 1 = 0) →
      Disk.read_sectors regs io true sc fuel = .err .TaskFileError ∧
      Disk.write_sectors regs io true sc fuel = .err .TaskFileError) := by
  refine ⟨?_, ?_, ?_⟩
  · intro h
    constructor
    · simp [Disk.read_sectors, h]
    · simp [Disk.write_sectors, h]
  · intro slot h
    constructor
    · simp [Disk.read_sectors, h]
    · simp [Disk.write_sectors, h]
  · intro slot k m hslot htfd hm hci his hfirst
    have hpoll : Disk.ciPoll slot io 0 fuel = some (.error .TaskFileError) :=
      ciPoll_tfes slot io m 0 fuel hm (by simpa using hci) (by simpa using his)
        (by simpa using hfirst)
    constructor
    · simp [Disk.read_sectors, hslot, htfd, hpoll]
    · simp [Disk.write_sectors, hslot, htfd, hpoll]

/-- Witness for C1 (amended): with `CAP = 0` both calls panic; with
`CAP = 0x1000` (slot 0 free) and a port that never completes but raises
TFES at once, both calls return `TaskFileError`. -/
theorem c1_amended_witness :
    Disk.read_sectors ⟨0, 0, 0⟩ quietIO true 1 5 = .panicked ∧
    Disk.read_sectors ⟨0x1000, 0, 0⟩ tfesIO true 1 5 = .err .TaskFileError ∧
    Disk.write_sectors ⟨0x1000, 0, 0⟩ tfesIO true 1 5 = .err .TaskFileError := by
  refine ⟨((c1_amended ⟨0, 0, 0⟩ quietIO 1 5).1 (by decide)).1, ?_, ?_⟩
  · exact ((c1_amended ⟨0x1000, 0, 0⟩ tfesIO 1 5).2.2 0 0 0 (by decide) (by decide)
      (by omega) (fun j hj => by show (1 : Nat) >>> 0 &&& 1 = 1; decide) (by decide) (fun j hj => absurd hj (by omega))).1
  · exact ((c1_amended ⟨0x1000, 0, 0⟩ tfesIO 1 5).2.2 0 0 0 (by decide) (by decide)
      (by omega) (fun j hj => by show (1 : Nat) >>> 0 &&& 1 = 1; decide) (by decide) (fun j hj => absurd hj (by omega))).2

/-! ## C3 — scheduler queue membership -/

/-- C3 counterexample: from the initial scheduler, `push_task` then
`end_task` on the returned PID leaves the record in the queue with state
DONE — a process record present in the queue whose state *is* DONE, so
"present iff state ≠ DONE" fails in a reachable state (removal is lazy,
on the next rotation). -/
theorem c3_counterexample :
    (Sched.end_task (Sched.push_task Sched.initScheduler).1 1).1.tasks =
      [{ state := .DONE, pid := 1 }] := by
  decide

theorem setState_cons_zero (a : Sched.Task) (l : List Sched.Task) (st : Sched.TaskState) :
    Sched.setState (a :: l) 0 st = { a with state := st } :: l := by
  simp [Sched.setState]

theorem setState_cons_succ (a : Sched.Task) (l : List Sched.Task) (i : Nat)
    (st : Sched.TaskState) :
    Sched.setState (a :: l) (i + 1) st = a :: Sched.setState l i st := by
  unfold Sched.setState
  rcases h : l[i]? with _ | t
  · simp [h]
  · simp [h]

/-- `setState` keeps every record, preserving its PID; its state is
either untouched or overwritten with `st`. -/
theorem setState_mem (tasks : List Sched.Task) (i : Nat) (st : Sched.TaskState)
    (t : Sched.Task) (ht : t ∈ tasks) :
    ∃ t', t' ∈ Sched.setState tasks i st ∧ t'.pid = t.pid ∧
      (t'.state = t.state ∨ t'.state = st) := by
  induction tasks generalizing i with
  | nil => cases ht
  | cons a l ih =>
    rcases i with _ | i
    · rw [setState_cons_zero]
      rcases List.mem_cons.mp ht with rfl | hmem
      · exact ⟨{ t with state := st }, List.mem_cons_self _ _, rfl, Or.inr rfl⟩
      · exact ⟨t, List.mem_cons_of_mem _ hmem, rfl, Or.inl rfl⟩
    · rw [setState_cons_succ]
      rcases List.mem_cons.mp ht with rfl | hmem
      · exact ⟨t, List.mem_cons_self _ _, rfl, Or.inl rfl⟩
      · rcases ih i hmem with ⟨t', h1, h2, h3⟩
        exact ⟨t', List.mem_cons_of_mem _ h1, h2, h3⟩

/-- `setState` at one index does not change the records at other
indices. -/
theorem setState_getElem?_ne (tasks : List Sched.Task) (i j : Nat)
    (st : Sched.TaskState) (h : i ≠ j) :
    (Sched.setState tasks i st)[j]? = tasks[j]? := by
  unfold Sched.setState
  rcases ht : tasks[i]? with _ | t
  · rfl
  · exact List.getElem?_set_ne h

/-- A member distinct from the erased element survives `eraseIdx`. -/
theorem mem_eraseIdx_of_ne (l : List Sched.Task) (i : Nat) (t : Sched.Task)
    (ht : t ∈ l) (hne : ∀ h : i < l.length, l[i] ≠ t) : t ∈ l.eraseIdx i := by
  rcases List.getElem_of_mem ht with ⟨j, hj, rfl⟩
  have hji : j ≠ i := by
    intro hji
    subst hji
    exact hne hj rfl
  exact List.mem_eraseIdx_iff_getElem.mpr ⟨j, hj, hji, rfl⟩

/-- The `get_next_task` rotation loop removes only DONE records: every
non-DONE record of the input queue is still in the output queue, and the
output queue is a sub-collection of the input queue. -/
theorem nextLoop_keep : ∀ (fuel : Nat) (tasks : List Sched.Task) (cur : Nat)
    (tasks2 : List Sched.Task) (cur2 : Nat),
    Sched.nextLoop tasks cur fuel = some (tasks2, cur2) →
    (∀ t ∈ tasks, t.state ≠ .DONE → t ∈ tasks2) ∧ (∀ t ∈ tasks2, t ∈ tasks) := by
  intro fuel
  induction fuel with
  | zero =>
    intro tasks cur tasks2 cur2 h
    cases h
  | succ fuel ih =>
    intro tasks cur tasks2 cur2 h
    unfold Sched.nextLoop at h
    rcases hget : tasks[Sched.nextIdx tasks cur]? with _ | t
    · rw [hget] at h
      exact ih _ _ _ _ h
    · rw [hget] at h
      rcases t with ⟨ts, pid⟩
      rcases ts
      · -- READY: loop stops, queue unchanged
        have h2 : some (tasks, Sched.nextIdx tasks cur) = some (tasks2, cur2) := h
        simp only [Option.some_inj, Prod.mk.injEq] at h2
        rcases h2 with ⟨rfl, _⟩
        exact ⟨fun t ht _ => ht, fun t ht => ht⟩
      · -- RUNNING: panic
        exact Option.noConfusion h
      · -- WAITING: skip
        exact ih _ _ _ _ h
      · -- DONE: record erased, recurse
        have hrec := ih _ _ _ _ h
        rcases List.getElem?_eq_some.mp hget with ⟨hlt, hval⟩
        constructor
        · intro t0 ht0 hstate
          refine hrec.1 t0 ?_ hstate
          refine mem_eraseIdx_of_ne _ _ _ ht0 ?_
          intro hlt2 heq
          rw [hval] at heq
          rw [← heq] at hstate
          exact hstate rfl
        · intro t0 ht0
          exact List.eraseIdx_subset _ _ (hrec.2 t0 ht0)

/-- Lifting `nextLoop_keep` through `get_next_task`. -/
theorem get_next_task_keep (s : Sched.Scheduler) (fuel : Nat) (s2 : Sched.Scheduler)
    (h : Sched.get_next_task s fuel = some s2) :
    (∀ t ∈ s.tasks, t.state ≠ .DONE → t ∈ s2.tasks) ∧ (∀ t ∈ s2.tasks, t ∈ s.tasks) := by
  unfold Sched.get_next_task at h
  rcases he : s.tasks.isEmpty
  · rw [he] at h
    simp only [Bool.false_eq_true, if_false] at h
    rcases hnl : Sched.nextLoop s.tasks s.current_task fuel with _ | p
    · rw [hnl] at h
      cases h
    · rcases p with ⟨tasks2, cur2⟩
      rw [hnl] at h
      simp only [Option.some_inj] at h
      subst h
      exact nextLoop_keep fuel s.tasks s.current_task tasks2 cur2 hnl
  · rw [he] at h
    simp only [if_true] at h
    simp only [Option.some_inj] at h
    subst h
    exact ⟨fun t ht _ => ht, fun t ht => ht⟩

/-- Lifting through `swap_tasks`: every non-DONE record keeps a record
with its PID in the queue (its state may be overwritten to RUNNING). -/
theorem swap_tasks_keep (s : Sched.Scheduler) (fuel : Nat) (s2 : Sched.Scheduler)
    (h : Sched.swap_tasks s fuel = some s2) :
    ∀ t ∈ s.tasks, t.state ≠ .DONE → ∃ t', t' ∈ s2.tasks ∧ t'.pid = t.pid := by
  unfold Sched.swap_tasks at h
  rcases hg : Sched.get_next_task { s with current_task_ticks := 0 } fuel with _ | s1
  · rw [hg] at h
    cases h
  · rw [hg] at h
    simp only [Option.some_inj] at h
    subst h
    intro t ht hstate
    have hkeep := (get_next_task_keep _ fuel s1 hg).1 t ht hstate
    rcases setState_mem s1.tasks s1.current_task .RUNNING t hkeep with ⟨t', h1, h2, _⟩
    exact ⟨t', h1, h2⟩

/-- C3 (amended): a DONE record may remain in the task queue until the
next rotation (the counterexample shows the claimed iff fails), and that
is the only discrepancy: no scheduler operation drops a record that is
not DONE.  `push_task` only appends; `end_task` only flips a state in
place; `tick` and `block_current` preserve (by PID) every record that is
not DONE; `end_current_task` preserves every record that is not DONE
other than the current task it itself marks DONE. -/
theorem c3_amended :
    (∀ (s : Sched.Scheduler) (t : Sched.Task), t ∈ s.tasks →
      t ∈ (Sched.push_task s).1.tasks) ∧
    (∀ (s : Sched.Scheduler) (pid : Nat) (t : Sched.Task), t ∈ s.tasks →
      ∃ t', t' ∈ (Sched.end_task s pid).1.tasks ∧ t'.pid = t.pid) ∧
    (∀ (s : Sched.Scheduler) (fuel : Nat) (s2 : Sched.Scheduler),
      Sched.tick s fuel = some s2 →
      ∀ t ∈ s.tasks, t.state ≠ .DONE →
        ∃ t', t' ∈ s2.tasks ∧ t'.pid = t.pid) ∧
    (∀ (s : Sched.Scheduler) (fuel : Nat) (s2 : Sched.Scheduler),
      Sched.block_current s fuel = some s2 →
      ∀ t ∈ s.tasks, t.state ≠ .DONE →
        ∃ t', t' ∈ s2.tasks ∧ t'.pid = t.pid) ∧
    (∀ (s : Sched.Scheduler) (fuel : Nat) (s2 : Sched.Scheduler),
      Sched.end_current_task s fuel = some s2 →
      ∀ (i : Nat) (hi : i < s.tasks.length), i ≠ s.current_task →
        (s.tasks.get ⟨i, hi⟩).state ≠ .DONE →
        ∃ t', t' ∈ s2.tasks ∧ t'.pid = (s.tasks.get ⟨i, hi⟩).pid) := by
  refine ⟨?_, ?_, ?_, ?_, ?_⟩
  · intro s t ht
    simp only [Sched.push_task]
    exact List.mem_append_left _ ht
  · intro s pid t ht
    unfold Sched.end_task
    rcases hf : s.tasks.findIdx? (fun t => t.pid == pid) with _ | i
    · rw [hf]
      exact ⟨t, ht, rfl⟩
    · rw [hf]
      rcases setState_mem s.tasks i .DONE t ht with ⟨t', h1, h2, _⟩
      exact ⟨t', h1, h2⟩
  · intro s fuel s2 h t ht hstate
    unfold Sched.tick at h
    rcases he : s.is_enabled
    · rw [he] at h
      have h2 : some s = some s2 := h
      simp only [Option.some_inj] at h2
      subst h2
      exact ⟨t, ht, rfl⟩
    · rw [he] at h
      simp only [Bool.not_true, Bool.false_eq_true, if_false] at h
      split_ifs at h with hq
      · rcases setState_mem s.tasks s.current_task .READY t ht with ⟨t1, h1, h2, h3⟩
        have hstate1 : t1.state ≠ .DONE := by
          rcases h3 with h3 | h3
          · rw [h3]
            exact hstate
          · rw [h3]
            intro hcontra
            cases hcontra
        rcases swap_tasks_keep _ fuel s2 h t1 h1 hstate1 with ⟨t', h4, h5⟩
        exact ⟨t', h4, h5.trans h2⟩
      · simp only [Option.some_inj] at h
        subst h
        exact ⟨t, ht, rfl⟩
  · intro s fuel s2 h t ht hstate
    unfold Sched.block_current at h
    rcases setState_mem s.tasks s.current_task .WAITING t ht with ⟨t1, h1, h2, h3⟩
    have hstate1 : t1.state ≠ .DONE := by
      rcases h3 with h3 | h3
      · rw [h3]
        exact hstate
      · rw [h3]
        intro hcontra
        cases hcontra
    rcases swap_tasks_keep _ fuel s2 h t1 h1 hstate1 with ⟨t', h4, h5⟩
    exact ⟨t', h4, h5.trans h2⟩
  · intro s fuel s2 h i hi hne hstate
    unfold Sched.end_current_task at h
    split_ifs at h with hsome
    · have hpos : (Sched.setState s.tasks s.current_task .DONE)[i]? = s.tasks[i]? :=
        setState_getElem?_ne s.tasks s.current_task i .DONE (fun hc => hne hc.symm)
      have hgi : s.tasks[i]? = some (s.tasks.get ⟨i, hi⟩) := by
        rw [List.getElem?_eq_some]
        exact ⟨hi, rfl⟩
      have hmem : s.tasks.get ⟨i, hi⟩ ∈ Sched.setState s.tasks s.current_task .DONE := by
        rw [← hpos] at hgi
        rcases List.getElem?_eq_some.mp hgi with ⟨hlt, hval⟩
        rw [← hval]
        exact List.getElem_mem hlt
      exact swap_tasks_keep _ fuel s2 h _ hmem hstate

/-- Witness for C3 (amended): `tick` on a one-task scheduler at the end of
its quantum rotates back to the task; a record with its PID (pid 5) is
still queued. -/
theorem c3_amended_witness :
    ∃ t', t' ∈ oneTaskSchedAfter.tasks ∧
      t'.pid = ({ state := .READY, pid := 5 } : Sched.Task).pid :=
  c3_amended.2.2.1 oneTaskSched 4 oneTaskSchedAfter (by decide)
    { state := .READY, pid := 5 } (by decide) (by decide)

end LobsterOS
